import Mathlib

/-!
Verification of the duplicate-override security subsystem
(`sical_security.py`): confirmation-token manager, multi-window rate
limiter with business hours, and the signed configuration loader.

Modelling conventions:
* Python `time.time()` timestamps are modelled as `Int` values (seconds).
* Python dicts keyed by strings are modelled as association lists with
  first-match lookup and in-place update, matching single-key mutation.
* `hmac.new(key, msg, sha256).hexdigest()` is modelled by the `Digest`
  structure pairing the key with the message: the real digest is a
  deterministic function of `(key, msg)`, so equal pairs give equal
  digests, and distinct pairs give distinct digests except for SHA-256
  collisions.  `hmac.compare_digest` is constant-time equality; it is
  modelled as equality of digests.
* `json.dumps(x, sort_keys=True, separators=(',', ':'))` is reproduced
  as an explicit canonical serializer for each dict shape the code
  serializes, with the keys laid out in sorted order exactly as the
  library emits them.
-/

namespace SicalSec

/-- JSON string escaping for the characters the payloads of this system
contain (quote and backslash; other characters are emitted verbatim). -/
def escapeChars : List Char → List Char
  | [] => []
  | c :: cs =>
    if c = '"' then '\\' :: '"' :: escapeChars cs
    else if c = '\\' then '\\' :: '\\' :: escapeChars cs
    else c :: escapeChars cs

/-- JSON escaping lifted to `String`. -/
def jsonEscape (s : String) : String := ⟨escapeChars s.data⟩

/-- JSON rendering of a string value. -/
def jsonStr (s : String) : String := "\"" ++ jsonEscape s ++ "\""

/-- JSON rendering of an optional string: `None` serializes as `null`. -/
def jsonOptStr : Option String → String
  | none => "null"
  | some s => jsonStr s

/-- Model of an HMAC-SHA-256 digest: the digest is a deterministic
function of the key and the message, so digest equality is modelled as
equality of the `(key, msg)` pair (faithful up to SHA-256 collisions). -/
structure Digest where
  key : String
  msg : String
deriving DecidableEq

/-- Model of `hmac.new(key.encode(), msg.encode(), hashlib.sha256)`. -/
def hmac_sha256 (key msg : String) : Digest := ⟨key, msg⟩

/-- One line item of an operation (`aplicaciones` entry).  Fields are
`Option String` because the Python code reads them with `dict.get`,
which yields `None` when absent; `importe` holds the string form of the
amount as presented in the payload. -/
structure Aplicacion where
  funcional : Option String
  economica : Option String
  importe : Option String
deriving DecidableEq

/-- An operation payload.  `extra` models any further dict entries
(e.g. the confirmation-token field itself) that `_hash_operation_data`
never reads. -/
structure OperationData where
  tercero : Option String
  fecha : Option String
  caja : Option String
  aplicaciones : List Aplicacion
  extra : List (String × String)
deriving DecidableEq

/-- Model of Python `str(...)` applied to an optional string value:
`str(None)` is the literal string `None`. -/
def pyStr : Option String → String
  | none => "None"
  | some s => s

/-- The per-line-item key fields extracted by `_hash_operation_data`:
`funcional`, `economica`, and `str(importe)`. -/
structure KeyApp where
  funcional : Option String
  economica : Option String
  importe : String
deriving DecidableEq

/-- The identity-bearing key fields extracted by `_hash_operation_data`:
`tercero`, `fecha`, `caja`, and the line items in their given order. -/
structure KeyFields where
  tercero : Option String
  fecha : Option String
  caja : Option String
  aplicaciones : List KeyApp
deriving DecidableEq

/-- Extraction of the key fields from an operation payload, mirroring
the `key_fields` dict built in `_hash_operation_data`. -/
def key_fields (od : OperationData) : KeyFields :=
  { tercero := od.tercero
    fecha := od.fecha
    caja := od.caja
    aplicaciones := od.aplicaciones.map
      (fun a => { funcional := a.funcional, economica := a.economica, importe := pyStr a.importe }) }

/-- Canonical JSON of one line item's key fields, keys sorted
(`economica` < `funcional` < `importe`), compact separators. -/
def serializeKeyApp (a : KeyApp) : String :=
  "\x7b\"economica\":" ++ jsonOptStr a.economica
    ++ ",\"funcional\":" ++ jsonOptStr a.funcional
    ++ ",\"importe\":" ++ jsonStr a.importe ++ "\x7d"

/-- Canonical JSON of the key fields, keys sorted (`aplicaciones` <
`caja` < `fecha` < `tercero`), compact separators — the exact string
`json.dumps(key_fields, sort_keys=True, separators=(',', ':'))`
produces.  The `aplicaciones` list is serialized in its given order. -/
def serializeKeyFields (k : KeyFields) : String :=
  "\x7b\"aplicaciones\":["
    ++ String.intercalate "," (k.aplicaciones.map serializeKeyApp)
    ++ "],\"caja\":" ++ jsonOptStr k.caja
    ++ ",\"fecha\":" ++ jsonOptStr k.fecha
    ++ ",\"tercero\":" ++ jsonOptStr k.tercero ++ "\x7d"

/-- `DuplicateConfirmationManager._hash_operation_data`: the keyed
fingerprint of an operation's identity-bearing fields. -/
def hash_operation_data (secret : String) (od : OperationData) : Digest :=
  hmac_sha256 secret (serializeKeyFields (key_fields od))

/-- `ConfirmationToken` dataclass. -/
structure ConfirmationToken where
  token_id : String
  operation_hash : Digest
  created_at : Int
  expires_at : Int
  used : Bool
  tercero : Option String
deriving DecidableEq

/-- State of a `DuplicateConfirmationManager` instance.  The token dict
is an association list with unique keys. -/
structure ManagerState where
  token_lifetime : Nat
  secret_key : String
  tokens : List (String × ConfirmationToken)
  cleanup_interval : Nat
  last_cleanup : Int
deriving DecidableEq

/-- Dict lookup `self.tokens[token_id]` / `token_id in self.tokens`. -/
def lookupTok : List (String × ConfirmationToken) → String → Option ConfirmationToken
  | [], _ => none
  | (k, t) :: rest, tid => if k = tid then some t else lookupTok rest tid

/-- Dict assignment `self.tokens[token_id] = token`: replace the entry
if the key is present, otherwise append it. -/
def dictInsert : List (String × ConfirmationToken) → String → ConfirmationToken →
    List (String × ConfirmationToken)
  | [], k, v => [(k, v)]
  | (k', v') :: rest, k, v =>
    if k' = k then (k, v) :: rest else (k', v') :: dictInsert rest k v

/-- The in-place mutation `token.used = True` on the entry stored under
`tid`. -/
def setUsed : List (String × ConfirmationToken) → String → List (String × ConfirmationToken)
  | [], _ => []
  | (k, t) :: rest, tid =>
    if k = tid then (k, { t with used := true }) :: rest
    else (k, t) :: setUsed rest tid

/-- The discriminated outcome of `validate_token`, one constructor per
failure reason distinguished by the code's error messages. -/
inductive ValidateResult where
  | ok
  | missingToken
  | unknownToken
  | alreadyUsed
  | expired
  | fingerprintMismatch
deriving DecidableEq

/-- `DuplicateConfirmationManager.validate_token`.  The checks run in
the code's order: missing id (`if not token_id`, which is true for both
`None` and the empty string), unknown id, already used, expired
(strict `now > expires_at`), fingerprint mismatch; on success the
stored token's `used` flag is set. -/
def validate_token (s : ManagerState) (token_id : Option String) (od : OperationData)
    (now : Int) : ValidateResult × ManagerState :=
  match token_id with
  | none => (.missingToken, s)
  | some tid =>
    if tid = "" then (.missingToken, s)
    else
      match lookupTok s.tokens tid with
      | none => (.unknownToken, s)
      | some token =>
        if token.used then (.alreadyUsed, s)
        else if now > token.expires_at then (.expired, s)
        else if hash_operation_data s.secret_key od ≠ token.operation_hash then
          (.fingerprintMismatch, s)
        else (.ok, { s with tokens := setUsed s.tokens tid })

/-- `DuplicateConfirmationManager._cleanup_expired_tokens`: when the
cleanup interval has elapsed, drop every token with `now > expires_at`. -/
def cleanup_expired_tokens (s : ManagerState) (now : Int) : ManagerState :=
  if now - s.last_cleanup < (s.cleanup_interval : Int) then s
  else
    { s with
      last_cleanup := now
      tokens := s.tokens.filter (fun kv => !(decide (now > kv.2.expires_at))) }

/-- `DuplicateConfirmationManager.generate_token`.  The fresh random
token id and the current clock are passed in explicitly (the code draws
them from `secrets.token_urlsafe` and `time.time()`). -/
def generate_token (s : ManagerState) (od : OperationData) (tid : String) (now : Int) :
    (String × Int) × ManagerState :=
  let h := hash_operation_data s.secret_key od
  let expires := now + (s.token_lifetime : Int)
  let tok : ConfirmationToken :=
    { token_id := tid, operation_hash := h, created_at := now, expires_at := expires
      used := false, tercero := od.tercero }
  let s' := { s with tokens := dictInsert s.tokens tid tok }
  ((tid, expires), cleanup_expired_tokens s' now)

/-- One `validate_token` invocation, for reasoning about call
sequences. -/
structure VCall where
  token_id : Option String
  od : OperationData
  now : Int

/-- Fold a sequence of `validate_token` calls over the manager state. -/
def runValidates (s : ManagerState) : List VCall → ManagerState
  | [] => s
  | c :: cs => runValidates (validate_token s c.token_id c.od c.now).2 cs

/-- `RateLimitWindow` dataclass. -/
structure RateLimitWindow where
  max_operations : Nat
  time_window_seconds : Nat
  name : String
deriving DecidableEq

/-- `BusinessHours` dataclass. -/
structure BusinessHours where
  start_hour : Nat
  end_hour : Nat
  timezone : String
deriving DecidableEq

/-- `RateLimitConfig` dataclass. -/
structure RateLimitConfig where
  windows : List RateLimitWindow
  business_hours : Option BusinessHours
deriving DecidableEq

/-- The discriminated result of `check_rate_limit` (the code returns
`(allowed, message)`; the constructors distinguish the messages). -/
inductive CheckResult where
  | ok
  | outsideBusinessHours
  | windowExceeded (name : String) (max_operations : Nat) (time_window_seconds : Nat)
deriving DecidableEq

/-- Outcome of one `check_rate_limit` call: either a returned result or
an uncaught Python exception escaping the method. -/
inductive CheckOutcome where
  | result (r : CheckResult)
  | pyError (msg : String)
deriving DecidableEq

/-- Python `max(...)` over a list of numbers: raises `ValueError` on an
empty sequence, modelled by `none`. -/
def listMax : List Nat → Option Nat
  | [] => none
  | x :: xs => some (xs.foldl Nat.max x)

/-- `MultiWindowRateLimiter._check_business_hours`, as the boolean
`allowed`.  `localHour` is the hour of the current instant in the
configured time zone, or `none` when `ZoneInfo` resolution fails, in
which case the code fails open (returns allowed). -/
def business_hours_ok (cfg : RateLimitConfig) (localHour : Option Nat) : Bool :=
  match cfg.business_hours with
  | none => true
  | some bh =>
    match localHour with
    | none => true
    | some hr => if hr < bh.start_hour ∨ bh.end_hour ≤ hr then false else true

/-- Entries of the operation log counted as inside a window of `w`
seconds ending at `now` (`now - ts < w`). -/
def recentCount (ops : List Int) (now : Int) (w : Nat) : Nat :=
  (ops.filter (fun ts => decide (now - ts < (w : Int)))).length

/-- The pruning `self.operations = [ts for ts in self.operations if now
- ts < max_window]`. -/
def pruneOps (ops : List Int) (now : Int) (maxW : Nat) : List Int :=
  ops.filter (fun ts => decide (now - ts < (maxW : Int)))

/-- `MultiWindowRateLimiter.check_rate_limit` acting on the operation
log.  Order as in the code: business hours first (before any window
work); then `max()` over the window lengths — an uncaught `ValueError`
when the windows list is empty; then the log is pruned to entries
within the largest window; then the windows are scanned in policy order
for the first violated one (no recording on failure); otherwise `now`
is appended. -/
def check_rate_limit (cfg : RateLimitConfig) (ops : List Int) (now : Int)
    (localHour : Option Nat) : CheckOutcome × List Int :=
  if business_hours_ok cfg localHour = false then
    (.result .outsideBusinessHours, ops)
  else
    match listMax (cfg.windows.map (fun w => w.time_window_seconds)) with
    | none => (.pyError "max() arg is an empty sequence", ops)
    | some maxW =>
      let pruned := pruneOps ops now maxW
      match cfg.windows.find?
          (fun w => decide (w.max_operations ≤ recentCount pruned now w.time_window_seconds)) with
      | some w => (.result (.windowExceeded w.name w.max_operations w.time_window_seconds), pruned)
      | none => (.result .ok, pruned ++ [now])

/-- Fold a sequence of `check_rate_limit` calls (at the given instants,
with no business-hours clock dependence) over the operation log,
collecting the outcomes. -/
def runChecks (cfg : RateLimitConfig) (ops : List Int) : List Int → List CheckOutcome × List Int
  | [] => ([], ops)
  | t :: ts =>
    let r := check_rate_limit cfg ops t none
    let rest := runChecks cfg r.2 ts
    (r.1 :: rest.1, rest.2)

/-- The `windows` entries of a persisted configuration document. -/
structure WindowDict where
  max_operations : Nat
  time_window_seconds : Nat
  name : String
deriving DecidableEq

/-- The `business_hours` entry of a persisted configuration document. -/
structure BHDict where
  start_hour : Nat
  end_hour : Nat
  timezone : String
deriving DecidableEq

/-- The `config` section of a persisted document; `none` fields model
absent keys. -/
structure ConfigDict where
  windows : Option (List WindowDict)
  business_hours : Option BHDict
deriving DecidableEq

/-- Python truthiness of the config dict: `not config` is true exactly
when the dict has no keys. -/
def ConfigDict.isEmpty (c : ConfigDict) : Bool :=
  c.windows.isNone && c.business_hours.isNone

/-- Canonical JSON of one window entry, keys sorted (`max_operations` <
`name` < `time_window_seconds`). -/
def serializeWindowDict (w : WindowDict) : String :=
  "\x7b\"max_operations\":" ++ toString w.max_operations
    ++ ",\"name\":" ++ jsonStr w.name
    ++ ",\"time_window_seconds\":" ++ toString w.time_window_seconds ++ "\x7d"

/-- Canonical JSON of the business-hours entry, keys sorted
(`end_hour` < `start_hour` < `timezone`). -/
def serializeBHDict (b : BHDict) : String :=
  "\x7b\"end_hour\":" ++ toString b.end_hour
    ++ ",\"start_hour\":" ++ toString b.start_hour
    ++ ",\"timezone\":" ++ jsonStr b.timezone ++ "\x7d"

/-- Canonical JSON of the config section, keys sorted (`business_hours`
< `windows`), absent keys omitted — the string signed by
`SecureConfigLoader._sign_config`. -/
def serializeConfigDict (c : ConfigDict) : String :=
  let parts : List String :=
    (match c.business_hours with
     | some b => ["\"business_hours\":" ++ serializeBHDict b]
     | none => []) ++
    (match c.windows with
     | some ws => ["\"windows\":[" ++ String.intercalate "," (ws.map serializeWindowDict) ++ "]"]
     | none => [])
  "\x7b" ++ String.intercalate "," parts ++ "\x7d"

/-- `SecureConfigLoader._sign_config`: keyed HMAC-SHA-256 over the
canonical serialization of the config section. -/
def sign_config (secret : String) (c : ConfigDict) : Digest :=
  hmac_sha256 secret (serializeConfigDict c)

/-- The parsed top-level document: `signature` and `config` sections,
`none` covering both an absent and a falsy (empty) value, which Python
`if not signature or not config` treats alike.  The `generated_at` and
`note` fields written by `save_config` are never read back and are not
modelled. -/
structure StoredDoc where
  signature : Option Digest
  config : Option ConfigDict
deriving DecidableEq

/-- What the loader finds at the configured path. -/
inductive FileState where
  | missing
  | unparseable
  | parsed (doc : StoredDoc)
deriving DecidableEq

/-- The `ValueError`s `load_config` raises, distinguished by message. -/
inductive LoadError where
  | corrupted
  | missingSection
  | badSignature
deriving DecidableEq

/-- `SecureConfigLoader.load_config`: missing file yields the empty
dict; unparseable JSON raises `corrupted`; a document lacking a truthy
`signature` or `config` raises `missingSection`; a signature that does
not match the recomputed one raises `badSignature` (constant-time
comparison modelled as digest equality); otherwise the config section
is returned. -/
def load_config (secret : String) : FileState → Except LoadError ConfigDict
  | .missing => .ok { windows := none, business_hours := none }
  | .unparseable => .error .corrupted
  | .parsed doc =>
    match doc.signature, doc.config with
    | some sig, some cfg =>
      if cfg.isEmpty then .error .missingSection
      else if sig = sign_config secret cfg then .ok cfg
      else .error .badSignature
    | some _, none => .error .missingSection
    | none, _ => .error .missingSection

/-- `SecureConfigLoader.save_config`: sign the config section and write
the signed document. -/
def save_config (secret : String) (cfg : ConfigDict) : StoredDoc :=
  { signature := some (sign_config secret cfg), config := some cfg }

/-- The dict-to-dataclass parsing inside `load_rate_limit_config`
(`windows` defaulted to the empty list when absent). -/
def parse_rate_limit_config (c : ConfigDict) : RateLimitConfig :=
  { windows := (c.windows.getD []).map
      (fun w => { max_operations := w.max_operations
                  time_window_seconds := w.time_window_seconds
                  name := w.name })
    business_hours := c.business_hours.map
      (fun b => { start_hour := b.start_hour, end_hour := b.end_hour
                  timezone := b.timezone }) }

/-- `_get_default_rate_limit_config`: 15 per hour, 30 per day, business
hours 7–19 Europe/Madrid. -/
def default_rate_limit_config : RateLimitConfig :=
  { windows :=
      [{ max_operations := 15, time_window_seconds := 3600, name := "hourly_limit" },
       { max_operations := 30, time_window_seconds := 86400, name := "daily_limit" }]
    business_hours := some { start_hour := 7, end_hour := 19, timezone := "Europe/Madrid" } }

/-- `load_rate_limit_config`: any exception from `load_config` (or from
parsing) is caught and replaced by the defaults; an empty returned dict
(missing file) also yields the defaults. -/
def load_rate_limit_config (secret : String) (fs : FileState) : RateLimitConfig :=
  match load_config secret fs with
  | .error _ => default_rate_limit_config
  | .ok c => if c.isEmpty then default_rate_limit_config else parse_rate_limit_config c

/-- The dict built by `save_rate_limit_config` from a policy before
signing. -/
def render_rate_limit_config (cfg : RateLimitConfig) : ConfigDict :=
  { windows := some (cfg.windows.map
      (fun w => { max_operations := w.max_operations
                  time_window_seconds := w.time_window_seconds
                  name := w.name }))
    business_hours := cfg.business_hours.map
      (fun b => { start_hour := b.start_hour, end_hour := b.end_hour
                  timezone := b.timezone }) }

/-- `save_rate_limit_config`: render the policy to the dict form and
save it signed. -/
def save_rate_limit_config (secret : String) (cfg : RateLimitConfig) : StoredDoc :=
  save_config secret (render_rate_limit_config cfg)

/-- Sample line item (from the spec's scenario). -/
def appX : Aplicacion :=
  { funcional := some "920", economica := some "224", importe := some "100.00" }

/-- Second, value-distinct sample line item. -/
def appY : Aplicacion :=
  { funcional := some "921", economica := some "225", importe := some "50.00" }

/-- Sample operation payload. -/
def odA : OperationData :=
  { tercero := some "A1", fecha := some "01012025", caja := some "200",
    aplicaciones := [appX], extra := [] }

/-- Payload with two distinct line items in one order. -/
def odSwap1 : OperationData :=
  { tercero := some "A1", fecha := some "01012025", caja := some "200",
    aplicaciones := [appX, appY], extra := [] }

/-- The same payload with the two line items permuted. -/
def odSwap2 : OperationData := { odSwap1 with aplicaciones := [appY, appX] }

/-- Sample stored token bound to `odA`, expiring at 300. -/
def tokA : ConfirmationToken :=
  { token_id := "tokA", operation_hash := hash_operation_data "secret" odA,
    created_at := 0, expires_at := 300, used := false, tercero := some "A1" }

/-- Sample manager state holding `tokA`, unused. -/
def stA : ManagerState :=
  { token_lifetime := 300, secret_key := "secret", tokens := [("tokA", tokA)],
    cleanup_interval := 60, last_cleanup := 0 }

/-- The sample token after consumption. -/
def tokAUsed : ConfirmationToken := { tokA with used := true }

/-- Manager state holding the consumed sample token. -/
def stAUsed : ManagerState := { stA with tokens := [("tokA", tokAUsed)] }

/-- Sample single-window policy: 2 operations per 60 seconds. -/
def cfgH : RateLimitConfig :=
  { windows := [{ max_operations := 2, time_window_seconds := 60, name := "h" }],
    business_hours := none }

/-- Sample policy with business hours 9–17 Europe/Madrid. -/
def cfgBH : RateLimitConfig :=
  { windows := [{ max_operations := 2, time_window_seconds := 60, name := "h" }],
    business_hours := some { start_hour := 9, end_hour := 17, timezone := "Europe/Madrid" } }

/-- A digest that does not match any signature of the sample configs. -/
def sigBad : Digest := hmac_sha256 "not-the-secret" "whatever"

/-- An alternative (tampered) config section. -/
def cfgDictAlt : ConfigDict := { windows := some [], business_hours := none }

/-! ### Supporting lemmas: token validation equations -/

theorem validate_none_eq (s : ManagerState) (od : OperationData) (now : Int) :
    validate_token s none od now = (.missingToken, s) := rfl

theorem validate_empty_eq (s : ManagerState) (od : OperationData) (now : Int) :
    validate_token s (some "") od now = (.missingToken, s) := by
  simp [validate_token]

theorem validate_unknown_eq (s : ManagerState) (tid : String) (od : OperationData) (now : Int)
    (htid : tid ≠ "") (hl : lookupTok s.tokens tid = none) :
    validate_token s (some tid) od now = (.unknownToken, s) := by
  simp [validate_token, htid, hl]

theorem validate_used_eq (s : ManagerState) (tid : String) (tok : ConfirmationToken)
    (od : OperationData) (now : Int)
    (htid : tid ≠ "") (hl : lookupTok s.tokens tid = some tok) (hu : tok.used = true) :
    validate_token s (some tid) od now = (.alreadyUsed, s) := by
  simp [validate_token, htid, hl, hu]

theorem validate_expired_eq (s : ManagerState) (tid : String) (tok : ConfirmationToken)
    (od : OperationData) (now : Int)
    (htid : tid ≠ "") (hl : lookupTok s.tokens tid = some tok) (hu : tok.used = false)
    (he : tok.expires_at < now) :
    validate_token s (some tid) od now = (.expired, s) := by
  simp [validate_token, htid, hl, hu, he]

theorem validate_mismatch_eq (s : ManagerState) (tid : String) (tok : ConfirmationToken)
    (od : OperationData) (now : Int)
    (htid : tid ≠ "") (hl : lookupTok s.tokens tid = some tok) (hu : tok.used = false)
    (he : now ≤ tok.expires_at)
    (hm : hash_operation_data s.secret_key od ≠ tok.operation_hash) :
    validate_token s (some tid) od now = (.fingerprintMismatch, s) := by
  have he' : ¬ (tok.expires_at < now) := not_lt.mpr he
  simp [validate_token, htid, hl, hu, he', hm]

theorem validate_ok_eq (s : ManagerState) (tid : String) (tok : ConfirmationToken)
    (od : OperationData) (now : Int)
    (htid : tid ≠ "") (hl : lookupTok s.tokens tid = some tok) (hu : tok.used = false)
    (he : now ≤ tok.expires_at)
    (hm : hash_operation_data s.secret_key od = tok.operation_hash) :
    validate_token s (some tid) od now = (.ok, { s with tokens := setUsed s.tokens tid }) := by
  have he' : ¬ (tok.expires_at < now) := not_lt.mpr he
  simp [validate_token, htid, hl, hu, he', hm]

/-- Exhaustive case analysis of one `validate_token` call: exactly the
six mutually exclusive scenarios of the code's decision precedence. -/
theorem validate_token_scenarios (s : ManagerState) (tid? : Option String) (od : OperationData)
    (now : Int) :
    ((tid? = none ∨ tid? = some "") ∧ validate_token s tid? od now = (.missingToken, s))
  ∨ (∃ tid, tid? = some tid ∧ tid ≠ "" ∧ lookupTok s.tokens tid = none
      ∧ validate_token s tid? od now = (.unknownToken, s))
  ∨ (∃ tid tok, tid? = some tid ∧ tid ≠ "" ∧ lookupTok s.tokens tid = some tok
      ∧ tok.used = true ∧ validate_token s tid? od now = (.alreadyUsed, s))
  ∨ (∃ tid tok, tid? = some tid ∧ tid ≠ "" ∧ lookupTok s.tokens tid = some tok
      ∧ tok.used = false ∧ tok.expires_at < now
      ∧ validate_token s tid? od now = (.expired, s))
  ∨ (∃ tid tok, tid? = some tid ∧ tid ≠ "" ∧ lookupTok s.tokens tid = some tok
      ∧ tok.used = false ∧ now ≤ tok.expires_at
      ∧ hash_operation_data s.secret_key od ≠ tok.operation_hash
      ∧ validate_token s tid? od now = (.fingerprintMismatch, s))
  ∨ (∃ tid tok, tid? = some tid ∧ tid ≠ "" ∧ lookupTok s.tokens tid = some tok
      ∧ tok.used = false ∧ now ≤ tok.expires_at
      ∧ hash_operation_data s.secret_key od = tok.operation_hash
      ∧ validate_token s tid? od now = (.ok, { s with tokens := setUsed s.tokens tid })) := by
  cases tid? with
  | none => exact Or.inl ⟨Or.inl rfl, rfl⟩
  | some tid =>
    by_cases htid : tid = ""
    · subst htid
      exact Or.inl ⟨Or.inr rfl, validate_empty_eq s od now⟩
    · cases hl : lookupTok s.tokens tid with
      | none =>
        exact Or.inr (Or.inl ⟨tid, rfl, htid, hl, validate_unknown_eq s tid od now htid hl⟩)
      | some tok =>
        by_cases hu : tok.used = true
        · exact Or.inr (Or.inr (Or.inl
            ⟨tid, tok, rfl, htid, hl, hu, validate_used_eq s tid tok od now htid hl hu⟩))
        · rw [Bool.not_eq_true] at hu
          by_cases he : tok.expires_at < now
          · exact Or.inr (Or.inr (Or.inr (Or.inl
              ⟨tid, tok, rfl, htid, hl, hu, he,
                validate_expired_eq s tid tok od now htid hl hu he⟩)))
          · rw [not_lt] at he
            by_cases hm : hash_operation_data s.secret_key od = tok.operation_hash
            · exact Or.inr (Or.inr (Or.inr (Or.inr (Or.inr
                ⟨tid, tok, rfl, htid, hl, hu, he, hm,
                  validate_ok_eq s tid tok od now htid hl hu he hm⟩))))
            · exact Or.inr (Or.inr (Or.inr (Or.inr (Or.inl
                ⟨tid, tok, rfl, htid, hl, hu, he, hm,
                  validate_mismatch_eq s tid tok od now htid hl hu he hm⟩))))

/-- Lookup after the in-place `used := true` mutation. -/
theorem lookupTok_setUsed (l : List (String × ConfirmationToken)) (tid tid' : String) :
    lookupTok (setUsed l tid') tid =
      if tid = tid' then (lookupTok l tid).map (fun t => { t with used := true })
      else lookupTok l tid := by
  induction l with
  | nil => simp only [setUsed, lookupTok]; split <;> rfl
  | cons kv rest ih =>
    obtain ⟨k, t⟩ := kv
    simp only [setUsed]
    by_cases hk : k = tid'
    · simp only [if_pos hk]
      by_cases ht : k = tid
      · subst ht
        simp [lookupTok, hk]
      · have htt : tid ≠ tid' := fun hEq => ht (hk.trans hEq.symm)
        simp [lookupTok, ht, htt]
    · simp only [if_neg hk]
      by_cases ht : k = tid
      · subst ht
        simp [lookupTok, hk]
      · simp [lookupTok, ht, ih]

/-- Shape of the state returned by `validate_token`: unchanged, or with
one token's `used` flag set. -/
theorem validate_snd_shape (s : ManagerState) (tid? : Option String) (od : OperationData)
    (now : Int) :
    (validate_token s tid? od now).2 = s
  ∨ ∃ tid, (validate_token s tid? od now).2 = { s with tokens := setUsed s.tokens tid } := by
  rcases validate_token_scenarios s tid? od now with
      ⟨_, he⟩ | ⟨t, _, _, _, he⟩ | ⟨t, tok, _, _, _, _, he⟩ | ⟨t, tok, _, _, _, _, _, he⟩
    | ⟨t, tok, _, _, _, _, _, _, he⟩ | ⟨t, tok, _, _, _, _, _, _, he⟩
  · exact Or.inl (by rw [he])
  · exact Or.inl (by rw [he])
  · exact Or.inl (by rw [he])
  · exact Or.inl (by rw [he])
  · exact Or.inl (by rw [he])
  · exact Or.inr ⟨t, by rw [he]⟩

/-- The token stored under `tid` is present and marked used. -/
def usedAt (s : ManagerState) (tid : String) : Prop :=
  ∃ tok, lookupTok s.tokens tid = some tok ∧ tok.used = true

/-- A consumed token stays present and consumed across any further
`validate_token` call. -/
theorem usedAt_validate (s : ManagerState) (tid : String) (h : usedAt s tid)
    (tid? : Option String) (od : OperationData) (now : Int) :
    usedAt (validate_token s tid? od now).2 tid := by
  rcases validate_snd_shape s tid? od now with h2 | ⟨tid', h2⟩ <;> rw [h2]
  · exact h
  · obtain ⟨tok, hl, hu⟩ := h
    show ∃ tok', lookupTok (setUsed s.tokens tid') tid = some tok' ∧ tok'.used = true
    rw [lookupTok_setUsed]
    split
    · exact ⟨{ tok with used := true }, by rw [hl]; rfl, rfl⟩
    · exact ⟨tok, hl, hu⟩

/-- A consumed token stays present and consumed across any sequence of
further `validate_token` calls. -/
theorem usedAt_runValidates (calls : List VCall) :
    ∀ (s : ManagerState) (tid : String), usedAt s tid → usedAt (runValidates s calls) tid := by
  induction calls with
  | nil => intro s tid h; exact h
  | cons c cs ih =>
    intro s tid h
    exact ih _ tid (usedAt_validate s tid h c.token_id c.od c.now)

/-- Claim C1: once a `validate_token` call for a token has succeeded (marking it
used), every subsequent `validate_token` call with the same token id — after any
further sequence of validation calls, with any payload (identical or not) and at
any time regardless of remaining lifetime — fails with the AlreadyUsed reason. -/
theorem used_token_never_validates_again (s : ManagerState) (tid : String) (od : OperationData)
    (now : Int) (calls : List VCall) (od' : OperationData) (now' : Int)
    (h : (validate_token s (some tid) od now).1 = .ok) :
    (validate_token (runValidates (validate_token s (some tid) od now).2 calls)
        (some tid) od' now').1 = .alreadyUsed := by
  rcases validate_token_scenarios s (some tid) od now with
      ⟨hm, he⟩ | ⟨t, ht, htid, hl, he⟩ | ⟨t, tok, ht, htid, hl, hu, he⟩
    | ⟨t, tok, ht, htid, hl, hu, hx, he⟩ | ⟨t, tok, ht, htid, hl, hu, hx, hh, he⟩
    | ⟨t, tok, ht, htid, hl, hu, hx, hh, he⟩
  · simp [he] at h
  · simp [he] at h
  · simp [he] at h
  · simp [he] at h
  · simp [he] at h
  · injection ht with ht'
    subst ht'
    have hused : usedAt (validate_token s (some tid) od now).2 tid := by
      rw [he]
      exact ⟨{ tok with used := true }, by rw [lookupTok_setUsed]; simp [hl], rfl⟩
    obtain ⟨tok', hl', hu'⟩ := usedAt_runValidates calls _ tid hused
    rw [validate_used_eq _ tid tok' od' now' htid hl' hu']

/-- Witness for C1: a concrete success followed by a later revalidation of the
same id with the same payload, after an interleaved call, past expiry. -/
theorem used_token_never_validates_again_witness :
    (validate_token (runValidates (validate_token stA (some "tokA") odA 10).2
        [⟨some "tokA", odA, 20⟩]) (some "tokA") odA 400).1 = .alreadyUsed :=
  used_token_never_validates_again stA "tokA" odA 10 [⟨some "tokA", odA, 20⟩] odA 400 (by decide)

/-- Claim C2: `validate_token` returns exactly one discriminated result, decided
in this precedence: MissingToken iff the id is absent or empty; otherwise
UnknownToken iff no token with that id is stored; otherwise AlreadyUsed iff the
stored token is used; otherwise Expired iff `now > expiresAt`; otherwise
FingerprintMismatch iff the recomputed fingerprint differs from the stored one;
otherwise Ok — and on Ok the stored token is marked used. -/
theorem validate_token_precedence (s : ManagerState) (tid? : Option String)
    (od : OperationData) (now : Int) :
    ((validate_token s tid? od now).1 = .missingToken ↔ (tid? = none ∨ tid? = some ""))
  ∧ ((validate_token s tid? od now).1 = .unknownToken ↔
      ∃ tid, tid? = some tid ∧ tid ≠ "" ∧ lookupTok s.tokens tid = none)
  ∧ ((validate_token s tid? od now).1 = .alreadyUsed ↔
      ∃ tid tok, tid? = some tid ∧ tid ≠ "" ∧ lookupTok s.tokens tid = some tok
        ∧ tok.used = true)
  ∧ ((validate_token s tid? od now).1 = .expired ↔
      ∃ tid tok, tid? = some tid ∧ tid ≠ "" ∧ lookupTok s.tokens tid = some tok
        ∧ tok.used = false ∧ tok.expires_at < now)
  ∧ ((validate_token s tid? od now).1 = .fingerprintMismatch ↔
      ∃ tid tok, tid? = some tid ∧ tid ≠ "" ∧ lookupTok s.tokens tid = some tok
        ∧ tok.used = false ∧ now ≤ tok.expires_at
        ∧ hash_operation_data s.secret_key od ≠ tok.operation_hash)
  ∧ ((validate_token s tid? od now).1 = .ok ↔
      ∃ tid tok, tid? = some tid ∧ tid ≠ "" ∧ lookupTok s.tokens tid = some tok
        ∧ tok.used = false ∧ now ≤ tok.expires_at
        ∧ hash_operation_data s.secret_key od = tok.operation_hash)
  ∧ ((validate_token s tid? od now).1 = .ok →
      ∃ tid tok, tid? = some tid ∧ lookupTok s.tokens tid = some tok
        ∧ lookupTok (validate_token s tid? od now).2.tokens tid
            = some { tok with used := true }) := by
  rcases validate_token_scenarios s tid? od now with
      ⟨hm, he⟩ | ⟨t, ht, htid, hl, he⟩ | ⟨t, tok, ht, htid, hl, hu, he⟩
    | ⟨t, tok, ht, htid, hl, hu, hx, he⟩ | ⟨t, tok, ht, htid, hl, hu, hx, hh, he⟩
    | ⟨t, tok, ht, htid, hl, hu, hx, hh, he⟩
  · rcases hm with rfl | rfl <;> simp [he]
  · subst ht; simp [he, hl, htid]
  · subst ht; simp [he, hl, htid, hu]
  · subst ht; simp [he, hl, htid, hu, hx, not_le.mpr hx]
  · subst ht; simp [he, hl, htid, hu, hh, hx, not_lt.mpr hx]
  · subst ht
    refine ⟨by simp [he, htid], by simp [he, hl, htid], by simp [he, hl, htid, hu],
      by simp [he, hl, htid, hu, not_lt.mpr hx], by simp [he, hl, htid, hu, hh],
      by simp [he, hl, htid, hu, hh, hx], ?_⟩
    intro _
    refine ⟨t, tok, rfl, hl, ?_⟩
    rw [he]
    show lookupTok (setUsed s.tokens t) t = _
    rw [lookupTok_setUsed]
    simp [hl]

/-- Witness for C2 on a concrete consumed-token state: the AlreadyUsed reason
takes precedence even past expiry. -/
theorem validate_token_precedence_witness :
    (validate_token stAUsed (some "tokA") odA 400).1 = .alreadyUsed :=
  (validate_token_precedence stAUsed (some "tokA") odA 400).2.2.1.mpr
    ⟨"tokA", tokAUsed, rfl, by decide, by decide, rfl⟩

/-- Claim C5 (amended): for an unused stored token, `validate_token` returns
Expired exactly when `now` is strictly greater than `expiresAt`; at the
boundary instant `now == expiresAt` the token is not treated as expired. -/
theorem validate_expired_iff_strictly_after (s : ManagerState) (tid : String)
    (tok : ConfirmationToken) (od : OperationData) (now : Int)
    (htid : tid ≠ "") (hl : lookupTok s.tokens tid = some tok) (hu : tok.used = false) :
    ((validate_token s (some tid) od now).1 = .expired ↔ tok.expires_at < now) := by
  constructor
  · intro hres
    rcases validate_token_scenarios s (some tid) od now with
        ⟨hm, he⟩ | ⟨t, ht, htid2, hl2, he⟩ | ⟨t, tok2, ht, htid2, hl2, hu2, he⟩
      | ⟨t, tok2, ht, htid2, hl2, hu2, hx, he⟩ | ⟨t, tok2, ht, htid2, hl2, hu2, hx, hh, he⟩
      | ⟨t, tok2, ht, htid2, hl2, hu2, hx, hh, he⟩
    · simp [he] at hres
    · simp [he] at hres
    · simp [he] at hres
    · injection ht with ht'
      subst ht'
      rw [hl] at hl2
      injection hl2 with hl2'
      subst hl2'
      exact hx
    · simp [he] at hres
    · simp [he] at hres
  · intro hgt
    rw [validate_expired_eq s tid tok od now htid hl hu hgt]

/-- Witness for the amended C5: one second past expiry the sample token is
rejected as Expired. -/
theorem validate_expired_iff_strictly_after_witness :
    (validate_token stA (some "tokA") odA 301).1 = .expired :=
  (validate_expired_iff_strictly_after stA "tokA" tokA odA 301 (by decide) (by decide) rfl).mpr
    (by decide)

/-- Counterexample to C5 as stated: the sample token expires at 300 and is
unused with matching payload, yet validation at `now = 300` — the boundary
instant `now == expiresAt` — succeeds instead of failing with Expired. -/
theorem validate_at_expiry_boundary_succeeds :
    tokA.expires_at = 300 ∧ tokA.used = false
      ∧ (validate_token stA (some "tokA") odA 300).1 = .ok :=
  ⟨rfl, rfl, by decide⟩

/-- Claim C10: whenever `validate_token` returns a failure, the token table is
left exactly as it was — no token inserted, removed, or consumed — so a later
correct, timely validation of a stored token still succeeds on the resulting
state. -/
theorem validate_failure_preserves_state (s : ManagerState) (tid? : Option String)
    (od : OperationData) (now : Int)
    (h : (validate_token s tid? od now).1 ≠ .ok) :
    (validate_token s tid? od now).2 = s
  ∧ ∀ (tid : String) (tok : ConfirmationToken) (od' : OperationData) (now' : Int),
      tid ≠ "" → lookupTok s.tokens tid = some tok → tok.used = false →
      now' ≤ tok.expires_at → hash_operation_data s.secret_key od' = tok.operation_hash →
      (validate_token (validate_token s tid? od now).2 (some tid) od' now').1 = .ok := by
  have hstate : (validate_token s tid? od now).2 = s := by
    rcases validate_token_scenarios s tid? od now with
        ⟨_, he⟩ | ⟨t, _, _, _, he⟩ | ⟨t, tok, _, _, _, _, he⟩ | ⟨t, tok, _, _, _, _, _, he⟩
      | ⟨t, tok, _, _, _, _, _, _, he⟩ | ⟨t, tok, _, _, _, _, _, _, he⟩
    · rw [he]
    · rw [he]
    · rw [he]
    · rw [he]
    · rw [he]
    · simp [he] at h
  refine ⟨hstate, ?_⟩
  intro tid tok od' now' htid hl hu hexp hm
  rw [hstate, validate_ok_eq s tid tok od' now' htid hl hu hexp hm]

/-- Witness for C10: a failed validation with an unknown id leaves the sample
state unchanged, and the stored token still validates afterwards. -/
theorem validate_failure_preserves_state_witness :
    (validate_token stA (some "bad") odA 10).2 = stA
  ∧ (validate_token (validate_token stA (some "bad") odA 10).2 (some "tokA") odA 10).1 = .ok :=
  ⟨(validate_failure_preserves_state stA (some "bad") odA 10 (by decide)).1,
   (validate_failure_preserves_state stA (some "bad") odA 10 (by decide)).2 "tokA" tokA odA 10
     (by decide) (by decide) rfl (by decide) rfl⟩

/-- Claim C4 (amended): fingerprints depend only on the extracted key fields —
tercero, fecha, caja and the line items taken in their given order — so two
payloads with equal key fields (whatever their incidental extra fields) get
equal fingerprints; but the serialized line-item list is order-sensitive, so
permuting two distinct line items changes the HMAC input and hence the
fingerprint. -/
theorem fingerprint_key_fields_order_sensitive (secret : String) (P Q : OperationData)
    (h : key_fields P = key_fields Q) :
    hash_operation_data secret P = hash_operation_data secret Q
  ∧ hash_operation_data "k" odSwap1 ≠ hash_operation_data "k" odSwap2 := by
  constructor
  · unfold hash_operation_data
    rw [h]
  · decide

/-- Witness for the amended C4: adding an extra, non-identity field leaves the
fingerprint unchanged. -/
theorem fingerprint_key_fields_order_sensitive_witness :
    hash_operation_data "k" odSwap1
      = hash_operation_data "k" { odSwap1 with extra := [("force", "true")] } :=
  (fingerprint_key_fields_order_sensitive "k" odSwap1
    { odSwap1 with extra := [("force", "true")] } rfl).1

/-- Counterexample to C4 as stated: `odSwap2` permutes the two (distinct) line
items of `odSwap1` — the same multiset, all other key fields identical — yet
the fingerprints differ, because the list is serialized in order. -/
theorem fingerprint_perm_counterexample :
    odSwap1.aplicaciones.Perm odSwap2.aplicaciones
  ∧ odSwap1.tercero = odSwap2.tercero ∧ odSwap1.fecha = odSwap2.fecha
  ∧ odSwap1.caja = odSwap2.caja
  ∧ hash_operation_data "k" odSwap1 ≠ hash_operation_data "k" odSwap2 := by
  refine ⟨?_, rfl, rfl, rfl, by decide⟩
  exact List.Perm.swap appY appX []

/-! ### Supporting lemmas: rate limiter -/

theorem find?_first_of_split {α : Type} (p : α → Bool) (pre : List α) (b : α) (post : List α)
    (hpre : ∀ a ∈ pre, p a = false) (hb : p b = true) :
    (pre ++ b :: post).find? p = some b := by
  induction pre with
  | nil => simpa [List.find?] using (by rw [hb])
  | cons a rest ih =>
    have ha : p a = false := hpre a (by simp)
    rw [List.cons_append, List.find?_cons_of_neg _ (by simp [ha])]
    exact ih (fun x hx => hpre x (by simp [hx]))

theorem check_bh_blocked_eq (cfg : RateLimitConfig) (ops : List Int) (now : Int)
    (lh : Option Nat) (h : business_hours_ok cfg lh = false) :
    check_rate_limit cfg ops now lh = (.result .outsideBusinessHours, ops) := by
  simp [check_rate_limit, h]

theorem business_hours_ok_failopen (cfg : RateLimitConfig) :
    business_hours_ok cfg none = true := by
  unfold business_hours_ok
  cases cfg.business_hours <;> rfl

theorem business_hours_ok_some_iff (cfg : RateLimitConfig) (bh : BusinessHours)
    (h : cfg.business_hours = some bh) (hr : Nat) :
    (business_hours_ok cfg (some hr) = false ↔ (hr < bh.start_hour ∨ bh.end_hour ≤ hr)) := by
  simp only [business_hours_ok, h]
  split
  · simp_all
  · simp_all

theorem check_not_outside_of_ok (cfg : RateLimitConfig) (ops : List Int) (now : Int)
    (lh : Option Nat) (hbh : business_hours_ok cfg lh = true) :
    (check_rate_limit cfg ops now lh).1 ≠ .result .outsideBusinessHours := by
  simp only [check_rate_limit, hbh]
  cases hmax : listMax (cfg.windows.map (fun w => w.time_window_seconds)) with
  | none => simp
  | some maxW =>
    cases hfind : cfg.windows.find?
        (fun w => decide (w.max_operations ≤
          recentCount (pruneOps ops now maxW) now w.time_window_seconds)) with
    | none => simp [hfind]
    | some w => simp [hfind]

theorem check_first_violated_eq (cfg : RateLimitConfig) (ops : List Int) (now : Int)
    (lh : Option Nat) (maxW : Nat) (pre : List RateLimitWindow) (w : RateLimitWindow)
    (post : List RateLimitWindow)
    (hbh : business_hours_ok cfg lh = true)
    (hmax : listMax (cfg.windows.map (fun w => w.time_window_seconds)) = some maxW)
    (hsplit : cfg.windows = pre ++ w :: post)
    (hpre : ∀ w' ∈ pre,
      recentCount (pruneOps ops now maxW) now w'.time_window_seconds < w'.max_operations)
    (hw : w.max_operations ≤ recentCount (pruneOps ops now maxW) now w.time_window_seconds) :
    check_rate_limit cfg ops now lh
      = (.result (.windowExceeded w.name w.max_operations w.time_window_seconds),
         pruneOps ops now maxW) := by
  have hfind : cfg.windows.find?
      (fun w' => decide (w'.max_operations ≤
        recentCount (pruneOps ops now maxW) now w'.time_window_seconds)) = some w := by
    rw [hsplit]
    exact find?_first_of_split _ pre w post
      (fun a ha => by simpa using not_le.mpr (hpre a ha)) (by simpa using hw)
  simp [check_rate_limit, hbh, hmax, hfind]

theorem check_all_pass_eq (cfg : RateLimitConfig) (ops : List Int) (now : Int)
    (lh : Option Nat) (maxW : Nat)
    (hbh : business_hours_ok cfg lh = true)
    (hmax : listMax (cfg.windows.map (fun w => w.time_window_seconds)) = some maxW)
    (hall : ∀ w ∈ cfg.windows,
      recentCount (pruneOps ops now maxW) now w.time_window_seconds < w.max_operations) :
    check_rate_limit cfg ops now lh = (.result .ok, pruneOps ops now maxW ++ [now]) := by
  have hfind : cfg.windows.find?
      (fun w => decide (w.max_operations ≤
        recentCount (pruneOps ops now maxW) now w.time_window_seconds)) = none := by
    rw [List.find?_eq_none]
    intro w hw
    simpa using not_le.mpr (hall w hw)
  simp [check_rate_limit, hbh, hmax, hfind]

theorem recentCount_pruneOps (ops : List Int) (now : Int) (w : Nat) :
    recentCount (pruneOps ops now w) now w = (pruneOps ops now w).length := by
  unfold recentCount pruneOps
  rw [List.filter_filter]
  simp

theorem runChecks_single_window_all_ok (N W : Nat) (nm : String) (t1 : Int) :
    ∀ (ts acc : List Int),
      (∀ t ∈ acc, t1 ≤ t ∧ t - t1 < (W : Int)) →
      (∀ t ∈ ts, t1 ≤ t ∧ t - t1 < (W : Int)) →
      acc.length + ts.length ≤ N →
      runChecks ⟨[⟨N, W, nm⟩], none⟩ acc ts
        = (List.replicate ts.length (.result .ok), acc ++ ts) := by
  intro ts
  induction ts with
  | nil =>
    intro acc hacc hts hlen
    simp [runChecks]
  | cons t ts ih =>
    intro acc hacc hts hlen
    simp only [List.length_cons] at hlen
    have hkeep : pruneOps acc t W = acc := by
      apply List.filter_eq_self.mpr
      intro a ha
      have h1 := hacc a ha
      have h2 := hts t (by simp)
      simp only [decide_eq_true_eq]
      omega
    have hcnt : recentCount (pruneOps acc t W) t W = acc.length := by
      rw [recentCount_pruneOps, hkeep]
    have hstep : check_rate_limit ⟨[⟨N, W, nm⟩], none⟩ acc t none
        = (.result .ok, acc ++ [t]) := by
      have h := check_all_pass_eq ⟨[⟨N, W, nm⟩], none⟩ acc t none W rfl rfl
        (by
          intro w hw
          simp only [List.mem_singleton] at hw
          subst hw
          show recentCount (pruneOps acc t W) t W < N
          rw [hcnt]
          omega)
      rwa [hkeep] at h
    have hrest := ih (acc ++ [t])
      (by
        intro a ha
        rcases List.mem_append.mp ha with ha | ha
        · exact hacc a ha
        · simp only [List.mem_singleton] at ha
          subst ha
          exact hts a (by simp))
      (fun a ha => hts a (by simp [ha]))
      (by simp at hlen ⊢; omega)
    simp only [runChecks, hstep, hrest]
    simp [List.replicate_succ]

theorem single_window_blocks (N W : Nat) (nm : String) (t1 t' : Int) (log : List Int)
    (hlen : log.length = N)
    (hin : ∀ t ∈ log, t1 ≤ t ∧ t - t1 < (W : Int))
    (_ht1 : t1 ≤ t') (ht2 : t' - t1 < (W : Int)) :
    check_rate_limit ⟨[⟨N, W, nm⟩], none⟩ log t' none
      = (.result (.windowExceeded nm N W), log) := by
  have hkeep : pruneOps log t' W = log := by
    apply List.filter_eq_self.mpr
    intro a ha
    have h1 := hin a ha
    simp only [decide_eq_true_eq]
    omega
  have hcnt : recentCount (pruneOps log t' W) t' W = N := by
    rw [recentCount_pruneOps, hkeep, hlen]
  have h := check_first_violated_eq ⟨[⟨N, W, nm⟩], none⟩ log t' none W [] ⟨N, W, nm⟩ []
    rfl rfl rfl (by simp) (by simp [hcnt])
  rwa [hkeep] at h

theorem single_window_slides (N W : Nat) (nm : String) (t1 t'' : Int) (rest : List Int)
    (hlen : (t1 :: rest).length = N)
    (hafter : (W : Int) ≤ t'' - t1) :
    (check_rate_limit ⟨[⟨N, W, nm⟩], none⟩ (t1 :: rest) t'' none).1 = .result .ok := by
  have hdrop : (decide (t'' - t1 < (W : Int))) = false := by
    simp only [decide_eq_false_iff_not]
    omega
  have hpr : pruneOps (t1 :: rest) t'' W
      = rest.filter (fun ts => decide (t'' - ts < (W : Int))) := by
    unfold pruneOps
    rw [List.filter_cons]
    simp [hdrop]
  have hle : (pruneOps (t1 :: rest) t'' W).length ≤ rest.length := by
    rw [hpr]
    exact List.length_filter_le _ _
  have hN : rest.length + 1 = N := by simpa using hlen
  have h := check_all_pass_eq ⟨[⟨N, W, nm⟩], none⟩ (t1 :: rest) t'' none W rfl rfl
    (by
      intro w hw
      simp only [List.mem_singleton] at hw
      subst hw
      show recentCount (pruneOps (t1 :: rest) t'' W) t'' W < N
      rw [recentCount_pruneOps]
      omega)
  rw [h]

/-- Claim C3: business hours are checked first; then the log is pruned of
entries older than the largest configured window; then the windows are checked
in policy order, failing with WindowExceeded at the first violated window
without evaluating later windows and without recording; only if all windows
pass is `now` appended and Ok returned.  Consequently, for a single window of
N operations per W seconds starting from an empty log, N calls within W
seconds of the first succeed, an (N+1)th call within the window fails, and once
W seconds have elapsed past the first recorded call a subsequent call succeeds
again (sliding window). -/
theorem check_rate_limit_spec :
    (∀ (cfg : RateLimitConfig) (ops : List Int) (now : Int) (lh : Option Nat),
        business_hours_ok cfg lh = false →
        check_rate_limit cfg ops now lh = (.result .outsideBusinessHours, ops))
  ∧ (∀ (cfg : RateLimitConfig) (ops : List Int) (now : Int) (lh : Option Nat) (maxW : Nat)
        (pre : List RateLimitWindow) (w : RateLimitWindow) (post : List RateLimitWindow),
        business_hours_ok cfg lh = true →
        listMax (cfg.windows.map (fun w => w.time_window_seconds)) = some maxW →
        cfg.windows = pre ++ w :: post →
        (∀ w' ∈ pre,
          recentCount (pruneOps ops now maxW) now w'.time_window_seconds < w'.max_operations) →
        w.max_operations ≤ recentCount (pruneOps ops now maxW) now w.time_window_seconds →
        check_rate_limit cfg ops now lh
          = (.result (.windowExceeded w.name w.max_operations w.time_window_seconds),
             pruneOps ops now maxW))
  ∧ (∀ (cfg : RateLimitConfig) (ops : List Int) (now : Int) (lh : Option Nat) (maxW : Nat),
        business_hours_ok cfg lh = true →
        listMax (cfg.windows.map (fun w => w.time_window_seconds)) = some maxW →
        (∀ w ∈ cfg.windows,
          recentCount (pruneOps ops now maxW) now w.time_window_seconds < w.max_operations) →
        check_rate_limit cfg ops now lh = (.result .ok, pruneOps ops now maxW ++ [now]))
  ∧ (∀ (N W : Nat) (nm : String) (t1 : Int) (rest : List Int),
        (t1 :: rest).length = N →
        (∀ t ∈ t1 :: rest, t1 ≤ t ∧ t - t1 < (W : Int)) →
        runChecks ⟨[⟨N, W, nm⟩], none⟩ [] (t1 :: rest)
          = (List.replicate N (.result .ok), t1 :: rest))
  ∧ (∀ (N W : Nat) (nm : String) (t1 t' : Int) (log : List Int),
        log.length = N →
        (∀ t ∈ log, t1 ≤ t ∧ t - t1 < (W : Int)) →
        t1 ≤ t' → t' - t1 < (W : Int) →
        check_rate_limit ⟨[⟨N, W, nm⟩], none⟩ log t' none
          = (.result (.windowExceeded nm N W), log))
  ∧ (∀ (N W : Nat) (nm : String) (t1 t'' : Int) (rest : List Int),
        (t1 :: rest).length = N →
        (W : Int) ≤ t'' - t1 →
        (check_rate_limit ⟨[⟨N, W, nm⟩], none⟩ (t1 :: rest) t'' none).1 = .result .ok) := by
  refine ⟨check_bh_blocked_eq, check_first_violated_eq, check_all_pass_eq, ?_,
    single_window_blocks, single_window_slides⟩
  intro N W nm t1 rest hlen hin
  have h := runChecks_single_window_all_ok N W nm t1 (t1 :: rest) [] (by simp) hin
    (by simp [hlen])
  simpa [hlen] using h

/-- Witness for C3: with a 2-per-60-seconds window, two calls at 0 and 10
succeed, a third at 20 is refused without recording, and a call at 60 — once
60 seconds have elapsed past the first recorded call — succeeds again. -/
theorem check_rate_limit_spec_witness :
    runChecks cfgH [] [0, 10] = ([.result .ok, .result .ok], [0, 10])
  ∧ check_rate_limit cfgH [0, 10] 20 none = (.result (.windowExceeded "h" 2 60), [0, 10])
  ∧ (check_rate_limit cfgH [0, 10] 60 none).1 = .result .ok := by
  refine ⟨?_, ?_, ?_⟩
  · have h := check_rate_limit_spec.2.2.2.1 2 60 "h" 0 [10] (by decide) (by decide)
    simpa using h
  · exact check_rate_limit_spec.2.2.2.2.1 2 60 "h" 0 20 [0, 10] (by decide) (by decide)
      (by decide) (by decide)
  · exact check_rate_limit_spec.2.2.2.2.2 2 60 "h" 0 60 [10] (by decide) (by decide)

/-- Claim C6 — violated by the code: on a policy whose windows list is empty
(with business hours absent or passing), `check_rate_limit` does not return a
discriminated result; the `max()` over the empty window sequence raises an
uncaught ValueError. -/
theorem check_rate_limit_empty_windows_pyError :
    check_rate_limit { windows := [], business_hours := none } [] 0 none
      = (.pyError "max() arg is an empty sequence", []) := rfl

/-- Claim C7: with business hours configured, `check_rate_limit` fails with
OutsideBusinessHours exactly when the local hour is below `startHour` or at
least `endHour` (inclusive start, exclusive end); when the time zone cannot be
resolved the business-hours check is skipped entirely (fail-open), behaving
exactly as if no business hours were configured; inside hours, with all
windows unconstrained, the call succeeds. -/
theorem business_hours_enforcement (cfg : RateLimitConfig) (bh : BusinessHours)
    (h : cfg.business_hours = some bh) :
    (∀ (ops : List Int) (now : Int) (hr : Nat),
        ((check_rate_limit cfg ops now (some hr)).1 = .result .outsideBusinessHours
          ↔ (hr < bh.start_hour ∨ bh.end_hour ≤ hr)))
  ∧ (∀ (ops : List Int) (now : Int),
        check_rate_limit cfg ops now none
          = check_rate_limit { cfg with business_hours := none } ops now none)
  ∧ (∀ (ops : List Int) (now : Int) (hr : Nat) (maxW : Nat),
        bh.start_hour ≤ hr → hr < bh.end_hour →
        listMax (cfg.windows.map (fun w => w.time_window_seconds)) = some maxW →
        (∀ w ∈ cfg.windows,
          recentCount (pruneOps ops now maxW) now w.time_window_seconds < w.max_operations) →
        check_rate_limit cfg ops now (some hr)
          = (.result .ok, pruneOps ops now maxW ++ [now])) := by
  refine ⟨?_, ?_, ?_⟩
  · intro ops now hr
    constructor
    · intro hres
      by_contra hcond
      have hok : business_hours_ok cfg (some hr) = true := by
        cases hbool : business_hours_ok cfg (some hr)
        · exact absurd ((business_hours_ok_some_iff cfg bh h hr).mp hbool) hcond
        · rfl
      exact check_not_outside_of_ok cfg ops now (some hr) hok hres
    · intro hcond
      rw [check_bh_blocked_eq cfg ops now (some hr)
        ((business_hours_ok_some_iff cfg bh h hr).mpr hcond)]
  · intro ops now
    have h1 : business_hours_ok cfg none = true := business_hours_ok_failopen cfg
    have h2 : business_hours_ok { cfg with business_hours := none } none = true := rfl
    simp [check_rate_limit, h1, h2]
  · intro ops now hr maxW hge hlt hmax hall
    have hok : business_hours_ok cfg (some hr) = true := by
      cases hbool : business_hours_ok cfg (some hr)
      · exfalso
        rcases (business_hours_ok_some_iff cfg bh h hr).mp hbool with hx | hx <;> omega
      · rfl
    exact check_all_pass_eq cfg ops now (some hr) maxW hok hmax hall

/-- Witness for C7: under hours 9–17, a call at local hour 17 (the exclusive
end) and at hour 8 is refused; at hour 9 with a clear window it succeeds. -/
theorem business_hours_enforcement_witness :
    ((check_rate_limit cfgBH [] 0 (some 17)).1 = .result .outsideBusinessHours)
  ∧ ((check_rate_limit cfgBH [] 0 (some 8)).1 = .result .outsideBusinessHours)
  ∧ check_rate_limit cfgBH [] 0 (some 9) = (.result .ok, [0]) := by
  have hbh : cfgBH.business_hours
      = some { start_hour := 9, end_hour := 17, timezone := "Europe/Madrid" } := rfl
  refine ⟨?_, ?_, ?_⟩
  · exact ((business_hours_enforcement cfgBH _ hbh).1 [] 0 17).mpr (by decide)
  · exact ((business_hours_enforcement cfgBH _ hbh).1 [] 0 8).mpr (by decide)
  · have h := (business_hours_enforcement cfgBH _ hbh).2.2 [] 0 9 60 (by decide) (by decide)
      rfl (by decide)
    simpa using h

/-! ### Supporting lemmas: secure configuration loader -/

theorem parse_render_id (p : RateLimitConfig) :
    parse_rate_limit_config (render_rate_limit_config p) = p := by
  obtain ⟨ws, bh⟩ := p
  have hws : ∀ l : List RateLimitWindow,
      (l.map (fun w => ({ max_operations := w.max_operations,
                          time_window_seconds := w.time_window_seconds,
                          name := w.name } : WindowDict))).map
          (fun w => ({ max_operations := w.max_operations,
                       time_window_seconds := w.time_window_seconds,
                       name := w.name } : RateLimitWindow)) = l := by
    intro l
    induction l with
    | nil => rfl
    | cons a rest ih => simp [ih]
  cases bh with
  | none => simp [parse_rate_limit_config, render_rate_limit_config, hws]
  | some b => simp [parse_rate_limit_config, render_rate_limit_config, hws]

theorem render_not_empty (p : RateLimitConfig) :
    (render_rate_limit_config p).isEmpty = false := rfl

/-- Claim C8: on a stored document whose recomputed signature does not equal
the stored one, `load_config` raises the signature-invalid error and returns no
field of the tampered payload; on a missing file the loader yields the
compiled-in default policy; on structurally invalid content (unparseable JSON,
or a missing/falsy signature or config section) it raises a malformed-config
error. -/
theorem load_config_contract (secret : String) :
    (∀ (doc : StoredDoc) (sig : Digest) (cfg : ConfigDict),
        doc.signature = some sig → doc.config = some cfg → cfg.isEmpty = false →
        sig ≠ sign_config secret cfg →
        load_config secret (.parsed doc) = .error .badSignature)
  ∧ load_rate_limit_config secret .missing = default_rate_limit_config
  ∧ load_config secret .unparseable = .error .corrupted
  ∧ (∀ doc : StoredDoc, doc.signature = none ∨ doc.config = none →
        load_config secret (.parsed doc) = .error .missingSection) := by
  refine ⟨?_, rfl, rfl, ?_⟩
  · intro doc sig cfg hs hc hemp hne
    obtain ⟨osig, ocfg⟩ := doc
    simp only at hs hc
    subst hs
    subst hc
    simp [load_config, hemp, hne]
  · intro doc hdoc
    obtain ⟨osig, ocfg⟩ := doc
    simp only at hdoc
    rcases hdoc with rfl | rfl
    · rfl
    · cases osig <;> rfl

/-- Witness for C8: a wrongly-signed document is rejected as badSignature, and
a missing file yields the default policy. -/
theorem load_config_contract_witness :
    load_config "secret" (.parsed
      { signature := some sigBad,
        config := some (render_rate_limit_config default_rate_limit_config) })
      = .error .badSignature
  ∧ load_rate_limit_config "secret" .missing = default_rate_limit_config :=
  ⟨(load_config_contract "secret").1 _ sigBad _ rfl rfl rfl (by decide),
   (load_config_contract "secret").2.1⟩

/-- Claim C9: `save` followed by `load` under the same process secret returns a
policy equal to the original; replacing the persisted signature by any other
digest, or the config payload by any section whose canonical serialization
differs, makes `load_config` reject with the signature error and
`load_rate_limit_config` fall back to the defaults rather than returning the
tampered values. -/
theorem config_roundtrip_and_tamper (secret : String) (p : RateLimitConfig) :
    load_rate_limit_config secret (.parsed (save_rate_limit_config secret p)) = p
  ∧ (∀ sig' : Digest, sig' ≠ sign_config secret (render_rate_limit_config p) →
      load_config secret (.parsed
        { signature := some sig',
          config := some (render_rate_limit_config p) }) = .error .badSignature
      ∧ load_rate_limit_config secret (.parsed
          { signature := some sig',
            config := some (render_rate_limit_config p) }) = default_rate_limit_config)
  ∧ (∀ c' : ConfigDict, c'.isEmpty = false →
      serializeConfigDict c' ≠ serializeConfigDict (render_rate_limit_config p) →
      load_config secret (.parsed
        { signature := some (sign_config secret (render_rate_limit_config p)),
          config := some c' }) = .error .badSignature
      ∧ load_rate_limit_config secret (.parsed
          { signature := some (sign_config secret (render_rate_limit_config p)),
            config := some c' }) = default_rate_limit_config) := by
  refine ⟨?_, ?_, ?_⟩
  · have hload : load_config secret (.parsed (save_rate_limit_config secret p))
        = .ok (render_rate_limit_config p) := by
      simp [load_config, save_rate_limit_config, save_config, render_not_empty]
    unfold load_rate_limit_config
    rw [hload]
    simp [render_not_empty, parse_render_id]
  · intro sig' hne
    have h1 : load_config secret (.parsed
        { signature := some sig',
          config := some (render_rate_limit_config p) }) = .error .badSignature := by
      simp [load_config, render_not_empty, hne]
    exact ⟨h1, by unfold load_rate_limit_config; rw [h1]⟩
  · intro c' hemp hser
    have hne2 : sign_config secret (render_rate_limit_config p) ≠ sign_config secret c' := by
      intro hEq
      exact hser (congrArg Digest.msg hEq).symm
    have h1 : load_config secret (.parsed
        { signature := some (sign_config secret (render_rate_limit_config p)),
          config := some c' }) = .error .badSignature := by
      simp [load_config, hemp, hne2]
    exact ⟨h1, by unfold load_rate_limit_config; rw [h1]⟩

/-- Witness for C9: the default policy round-trips through save and load, and
both a replaced signature and a replaced payload fall back to the defaults. -/
theorem config_roundtrip_and_tamper_witness :
    load_rate_limit_config "secret" (.parsed (save_rate_limit_config "secret"
        default_rate_limit_config)) = default_rate_limit_config
  ∧ load_rate_limit_config "secret" (.parsed
      { signature := some sigBad,
        config := some (render_rate_limit_config default_rate_limit_config) })
        = default_rate_limit_config
  ∧ load_rate_limit_config "secret" (.parsed
      { signature := some (sign_config "secret"
          (render_rate_limit_config default_rate_limit_config)),
        config := some cfgDictAlt })
        = default_rate_limit_config :=
  ⟨(config_roundtrip_and_tamper "secret" default_rate_limit_config).1,
   ((config_roundtrip_and_tamper "secret" default_rate_limit_config).2.1 sigBad (by decide)).2,
   ((config_roundtrip_and_tamper "secret" default_rate_limit_config).2.2 cfgDictAlt rfl
     (by decide)).2⟩

end SicalSec
